import Mathlib

/-!
Verification of the cluster membership manager (`cluster/members_manager.cc`).

The definitions below are a shallow embedding of the members manager:
the UUID → node-id registry (`try_register_node_id`, `get_or_assign_node_id`,
`apply_initial_node_uuid_map`), the join handler (`handle_join_request`),
the configuration-update handler (`handle_configuration_update_request`
and `check_result_configuration`), the raft-configuration applier
(`handle_raft0_cfg_update`) and the command applier (`apply_update`).

Machine integers: a node id is a 32-bit signed integer in the source; it is
modelled as `Int` with the sentinel `UNASSIGNED = -1` and the reserved
exhaustion marker `INT_MAX = 2147483647`.  A node UUID is an opaque byte
string, modelled as `List Nat`.  External collaborators (the consensus layer,
the RPC transport, the allocator, the drain manager) are modelled as opaque
oracle results carried in environment records, exactly at the interface the
source uses them.
-/

namespace RedpandaMembers

/-- The 32-bit `INT_MAX`, reserved by the source as the node-id exhaustion marker. -/
def INT_MAX : Int := 2147483647

/-- Sentinel `model::unassigned_node_id`: sentinel meaning "no id chosen yet". -/
def UNASSIGNED : Int := -1

/-- A node UUID: opaque byte string (16 bytes when well-formed). -/
abbrev NodeUuid := List Nat

/-- Association-list lookup; mirrors `absl::flat_hash_map::find`. -/
def alookup {α β : Type} [DecidableEq α] : List (α × β) → α → Option β
  | [], _ => none
  | (k, v) :: rest, a => if k = a then some v else alookup rest a

/-- Map `emplace`: insert only when the key is absent (hash-map emplace never
overwrites an existing binding). -/
def aemplace {α β : Type} [DecidableEq α] (m : List (α × β)) (k : α) (v : β) :
    List (α × β) :=
  match alookup m k with
  | some _ => m
  | none => (k, v) :: m

/-- The slice of the members table that the id registry reads:
`members_table::contains` (ids of active brokers) and
`members_table::get_removed_node_metadata_ref` (tombstoned ids). -/
structure MembersView where
  active : List Int
  removed : List Int
deriving DecidableEq

/-- Predicate `contains(id) || get_removed_node_metadata_ref(id).has_value()`:
the condition of the assignment loop in `get_or_assign_node_id`. -/
def MembersView.occupied (v : MembersView) (i : Int) : Bool :=
  v.active.any (fun x => x = i) || v.removed.any (fun x => x = i)

/-- The id registry owned by the members manager: `_id_by_uuid` plus
`_next_assigned_id`. -/
structure Registry where
  idByUuid : List (NodeUuid × Int)
  nextAssignedId : Int
deriving DecidableEq

/-- The registry as constructed: empty map, `_next_assigned_id = 1`. -/
def initRegistry : Registry := { idByUuid := [], nextAssignedId := 1 }

/-- Embedding of `members_manager::try_register_node_id`.  The source asserts
`requested_node_id != unassigned_node_id` on entry; the members-table
`contains` test in the unknown-UUID branch only emits a log line and does not
change the outcome, so it does not appear here. -/
def tryRegisterNodeId (s : Registry) (requestedNodeId : Int) (uuid : NodeUuid) :
    Bool × Registry :=
  match alookup s.idByUuid uuid with
  | none => (true, { s with idByUuid := aemplace s.idByUuid uuid requestedNodeId })
  | some nodeId => (decide (nodeId = requestedNodeId), s)

/-- The `while` loop of `get_or_assign_node_id`:
`while (contains(next) || removed(next)) { if (next == INT_MAX) return nullopt;
++next; }` followed by the post-loop `if (next == INT_MAX) return nullopt;`.
Returns the loop's answer together with the final value of
`_next_assigned_id` (the loop mutates the member in place).  The fuel
argument is instantiated with `(INT_MAX + 1 - next).toNat`, which is enough
for the loop to reach `INT_MAX` from any starting point `next ≤ INT_MAX`;
the fuel-exhausted case is unreachable for those starting points. -/
def advanceLoop (occ : Int → Bool) : Nat → Int → Option Int × Int
  | 0, next => (none, next)
  | fuel + 1, next =>
    if occ next then
      if next = INT_MAX then (none, next)
      else advanceLoop occ fuel (next + 1)
    else if next = INT_MAX then (none, next)
    else (some next, next)

/-- Embedding of `members_manager::get_or_assign_node_id`.  On a fresh UUID the returned id
is the final loop value and `_next_assigned_id` is post-incremented past it. -/
def getOrAssignNodeId (view : MembersView) (s : Registry) (uuid : NodeUuid) :
    Option Int × Registry :=
  match alookup s.idByUuid uuid with
  | some nodeId => (some nodeId, s)
  | none =>
    match advanceLoop view.occupied (INT_MAX + 1 - s.nextAssignedId).toNat
        s.nextAssignedId with
    | (none, nf) => (none, { s with nextAssignedId := nf })
    | (some m, _) =>
      (some m, { idByUuid := aemplace s.idByUuid uuid m, nextAssignedId := m + 1 })

/-- The seeding loop of `apply_initial_node_uuid_map`: scan the map, stop at an
`INT_MAX` id taking it verbatim, otherwise accumulate `max(next, id + 1)`. -/
def seedNextAssignedId (next : Int) : List (NodeUuid × Int) → Int
  | [] => next
  | (_, i) :: rest => if i = INT_MAX then i else seedNextAssignedId (max next (i + 1)) rest

/-- Embedding of `members_manager::apply_initial_node_uuid_map`.  The source's
`vassert(_id_by_uuid.empty())` (fatal on violation) is modelled as `none`. -/
def applyInitialNodeUuidMap (s : Registry) (m : List (NodeUuid × Int)) :
    Option Registry :=
  if s.idByUuid.isEmpty then
    some { idByUuid := m, nextAssignedId := seedNextAssignedId s.nextAssignedId m }
  else none

/-- A registry mutation: the two operations that touch `_id_by_uuid`. -/
inductive RegistryOp where
  | tryReg (requestedNodeId : Int) (uuid : NodeUuid)
  | assign (view : MembersView) (uuid : NodeUuid)
deriving DecidableEq

/-- Apply one registry operation, keeping only the state. -/
def applyOp (s : Registry) : RegistryOp → Registry
  | .tryReg rid uuid => (tryRegisterNodeId s rid uuid).2
  | .assign view uuid => (getOrAssignNodeId view s uuid).2

/-- Apply a sequence of registry operations in order. -/
def applyOps (ops : List RegistryOp) (s : Registry) : Registry :=
  ops.foldl applyOp s

/-- Apply a sequence of `get_or_assign_node_id` calls (each against its own
members-table view) in order. -/
def applyAssigns (calls : List (MembersView × NodeUuid)) (s : Registry) : Registry :=
  calls.foldl (fun t c => (getOrAssignNodeId c.1 t c.2).2) s

/-- The UUID ↔ id mapping is a partial bijection: pairwise distinct UUIDs and
pairwise distinct ids. -/
def RegistryBijective (s : Registry) : Prop :=
  s.idByUuid.Pairwise (fun a b => a.1 ≠ b.1 ∧ a.2 ≠ b.2)

/-- The registry invariant claimed by the spec: partial bijection plus
`_next_assigned_id` strictly above every bound id. -/
def RegistryInv (s : Registry) : Prop :=
  RegistryBijective s ∧ ∀ p ∈ s.idByUuid, p.2 < s.nextAssignedId

/-- A named Kafka advertised endpoint (`model::broker_endpoint`); equality is
element-wise and includes the name. -/
structure BrokerEndpoint where
  name : Nat
  address : Nat
deriving DecidableEq

/-- A broker record (`model::broker`): id, RPC listener address, advertised
Kafka listeners, core count, optional rack. -/
structure Broker where
  id : Int
  rpcAddress : Nat
  kafkaAdvertisedListeners : List BrokerEndpoint
  cores : Nat
  rack : Option Nat
deriving DecidableEq

/-- The error codes the members manager surfaces (`cluster::errc`), plus a
`raft` constructor standing for an error code coming back from the consensus
layer (`raft::errc`, opaque to this subsystem). -/
inductive Errc where
  | success
  | invalid_request
  | invalid_node_operation
  | invalid_configuration_update
  | no_leader_controller
  | seed_servers_exhausted
  | join_request_dispatch_error
  | raft (code : Nat)
deriving DecidableEq

/-- Request `configuration_update_request{node, target_node}`. -/
structure ConfigurationUpdateRequest where
  node : Broker
  targetNode : Int
deriving DecidableEq

/-- Outcome of `handle_configuration_update_request`
(`result<configuration_update_reply>`): an error code or a reply flag. -/
inductive CfgUpdateResult where
  | err (e : Errc)
  | reply (success : Bool)
deriving DecidableEq

/-- Embedding of `check_result_configuration` from `members_manager.cc`: walk the current
members-table entries; for the same id the core count must not decrease; for a
different id the RPC address and every Kafka advertised endpoint must differ.
The source returns `std::optional<ss::sstring>` (an error message); the
message text is elided, `some ()` marks a violation. -/
def check_result_configuration : List (Int × Broker) → Broker → Option Unit
  | [], _ => none
  | (i, current) :: rest, toUpdate =>
    if i = toUpdate.id then
      if current.cores > toUpdate.cores then some ()
      else check_result_configuration rest toUpdate
    else if current.rpcAddress = toUpdate.rpcAddress then some ()
    else if current.kafkaAdvertisedListeners.any
        (fun currentEp => toUpdate.kafkaAdvertisedListeners.any
          (fun ep => ep = currentEp)) then some ()
    else check_result_configuration rest toUpdate

/-- The semantic reading of an invalid configuration update: against some
existing broker, the update decreases its own core count, or shares the RPC
address with a broker of a different id, or shares a Kafka advertised
endpoint (element-wise, name included) with a broker of a different id. -/
def BadConfiguration (current : List (Int × Broker)) (b : Broker) : Prop :=
  ∃ p ∈ current,
    (p.1 = b.id ∧ b.cores < p.2.cores) ∨
    (p.1 ≠ b.id ∧ (p.2.rpcAddress = b.rpcAddress ∨
      ∃ ep ∈ p.2.kafkaAdvertisedListeners, ep ∈ b.kafkaAdvertisedListeners))

instance (current : List (Int × Broker)) (b : Broker) :
    Decidable (BadConfiguration current b) := by
  unfold BadConfiguration; infer_instance

/-- Environment of `handle_configuration_update_request`: own id, the local
members table (`members_table::nodes()`), the consensus leader, and oracles
for the two external calls: `raft0->update_group_member` (a raft error code,
`none` on success) and the forwarding RPC to the leader (whose value is
whatever the leader's handler returned, or `join_request_dispatch_error` if
the RPC threw). -/
structure CfgEnv where
  selfId : Int
  nodes : List (Int × Broker)
  leaderId : Option Int
  updateGroupMemberRes : Option Nat
  forwardRes : CfgUpdateResult

/-- Embedding of `members_manager::handle_configuration_update_request`.  The connection
cache update (`update_connections`) performed between the validity check and
the leader dispatch does not affect the returned value and is omitted here. -/
def handleConfigurationUpdate (env : CfgEnv) (req : ConfigurationUpdateRequest) :
    CfgUpdateResult :=
  if req.targetNode ≠ env.selfId then .reply false
  else if (check_result_configuration env.nodes req.node).isSome then
    .err .invalid_configuration_update
  else
    match env.leaderId with
    | none => .err .no_leader_controller
    | some lid =>
      if lid = env.selfId then
        match env.updateGroupMemberRes with
        | none => .reply true
        | some c => .err (.raft c)
      else
        match alookup env.nodes lid with
        | none => .err .no_leader_controller
        | some _ => env.forwardRes

/-- The kinds of events on the node-update queue. -/
inductive NodeUpdateType where
  | added
  | decommissioned
  | recommissioned
  | reallocation_finished
deriving DecidableEq

/-- Event record `members_manager::node_update`. -/
structure NodeUpdate where
  id : Int
  type : NodeUpdateType
  offset : Int
deriving DecidableEq

/-- Per-shard members-table state: active brokers keyed by id plus the
tombstone set of removed ids. -/
structure MembersState where
  nodes : List (Int × Broker)
  removedNodes : List Int
deriving DecidableEq

/-- The slice of the members table the id registry consults. -/
def membersView (ms : MembersState) : MembersView :=
  { active := ms.nodes.map (fun p => p.1), removed := ms.removedNodes }

/-- Diff record `members_manager::changed_nodes`. -/
structure ChangedNodes where
  added : List Broker
  updated : List Broker
  removed : List Int
deriving DecidableEq

/-- Embedding of `members_manager::calculate_changed_nodes`: brokers of the new
configuration absent from the members table are added; present but different
are updated; table ids absent from the configuration are removed. -/
def calculateChangedNodes (members : List (Int × Broker)) (cfgBrokers : List Broker) :
    ChangedNodes :=
  { added := cfgBrokers.filter (fun b => (alookup members b.id).isNone)
    updated := cfgBrokers.filter (fun b =>
      match alookup members b.id with
      | some current => decide (current ≠ b)
      | none => false)
    removed := (members.filter
      (fun p => !cfgBrokers.any (fun b => b.id = p.1))).map (fun p => p.1) }

/-- Modelled from the spec: `remove_broker_client` (cluster_utils, not under
src/) removes the id's entry from the connection cache. -/
def removeBrokerClient (cache : List (Int × Nat)) (i : Int) : List (Int × Nat) :=
  cache.filter (fun p => p.1 ≠ i)

/-- Modelled from the spec: `update_broker_client` (cluster_utils, not under
src/) adds or replaces the id's entry with the given address. -/
def updateBrokerClient (cache : List (Int × Nat)) (i : Int) (addr : Nat) :
    List (Int × Nat) :=
  (i, addr) :: removeBrokerClient cache i

/-- Embedding of `members_manager::update_connections`: remove clients of removed ids,
then add-or-replace clients for added and updated brokers, always skipping
self. -/
def updateConnections (selfId : Int) (cache : List (Int × Nat)) (ch : ChangedNodes) :
    List (Int × Nat) :=
  let c1 := ch.removed.foldl
    (fun c i => if i = selfId then c else removeBrokerClient c i) cache
  let c2 := ch.added.foldl
    (fun c b => if b.id = selfId then c else updateBrokerClient c b.id b.rpcAddress) c1
  ch.updated.foldl
    (fun c b => if b.id = selfId then c else updateBrokerClient c b.id b.rpcAddress) c2

/-- Modelled from the spec: `members_table::update_brokers` (not under src/)
reconciles the per-shard table with the new configuration — the active set
becomes the configuration's brokers and ids no longer present move to the
tombstone set (spec §3 lifecycle, §4.2).  The per-entry update offset kept by
the real table is not needed by any claim and is omitted. -/
def MembersState.updateBrokers (st : MembersState) (cfgBrokers : List Broker) :
    MembersState :=
  { nodes := cfgBrokers.map (fun b => (b.id, b))
    removedNodes := st.removedNodes ++ (st.nodes.filter
      (fun p => !cfgBrokers.any (fun b => b.id = p.1))).map (fun p => p.1) }

/-- The manager state touched by the command applier and the
raft-configuration handler: the (single-shard model of the) members table,
the id registry, `_last_connection_update_offset`, the connection cache and
the update queue.  The fan-out to other shards applies the identical mutation
on each shard (the source asserts unanimity of the result codes), so one
shard's table stands for all of them. -/
structure ManagerState where
  selfId : Int
  members : MembersState
  registry : Registry
  lastConnectionUpdateOffset : Int
  connections : List (Int × Nat)
  updateQueue : List NodeUpdate
deriving DecidableEq

/-- Embedding of `members_manager::handle_raft0_cfg_update`: compute the diff against the
pre-state members table, reconcile every shard's table, and only when the
batch offset exceeds `_last_connection_update_offset` reconcile the
connection cache, advance the offset and enqueue an `added` update per added
broker.  The partition-allocator node-list refresh (step 1 in the source) is
out of scope and omitted. -/
def handleRaft0CfgUpdate (st : ManagerState) (cfgBrokers : List Broker)
    (updateOffset : Int) : ManagerState :=
  let diff := calculateChangedNodes st.members.nodes cfgBrokers
  let st1 := { st with members := st.members.updateBrokers cfgBrokers }
  if updateOffset ≤ st.lastConnectionUpdateOffset then st1
  else
    { st1 with
      connections := updateConnections st.selfId st1.connections diff
      lastConnectionUpdateOffset := updateOffset
      updateQueue := st1.updateQueue ++ diff.added.map
        (fun b => { id := b.id, type := .added, offset := updateOffset }) }

/-- The membership commands the applier accepts (`accepted_commands`). -/
inductive Cmd where
  | decommission (i : Int)
  | recommission (i : Int)
  | finishReallocations (i : Int)
  | maintenance (i : Int) (enabled : Bool)
  | registerNodeUuid (uuid : NodeUuid) (requested : Option Int)
deriving DecidableEq

/-- The view of the consensus-group configuration the recommission guard
reads: whether the configuration is joint, and the ids of
`old_config->learners` (demoted voters pending removal). -/
structure RaftCfgView where
  isJoint : Bool
  oldLearners : List Int

/-- Environment of `apply_update`: the consensus-configuration view and an
oracle for `members_table::apply` (the table's own command semantics live in
`members_table.cc`, which is not under src/; the applier only branches on its
result code, `Errc.success` meaning a zero error code). -/
structure ApplyEnv where
  raftCfg : RaftCfgView
  mtApply : Int → Cmd → MembersState → Errc × MembersState

/-- The command-dispatch arm of `members_manager::apply_update` (the
`raft_configuration` batch type is handled by `handleRaft0CfgUpdate`).
Allocator and drain-manager side effects are out of scope and omitted; the
queue, the members table, the registry and the returned error code are
modelled exactly as dispatched by the source. -/
def applyUpdate (env : ApplyEnv) (st : ManagerState) (updateOffset : Int) :
    Cmd → Errc × ManagerState
  | .decommission i =>
    let r := env.mtApply updateOffset (.decommission i) st.members
    if r.1 = .success then
      (r.1, { st with
        members := r.2
        updateQueue := st.updateQueue
          ++ [{ id := i, type := .decommissioned, offset := updateOffset }] })
    else (r.1, { st with members := r.2 })
  | .recommission i =>
    if env.raftCfg.isJoint ∧ env.raftCfg.oldLearners.any (fun l => l = i) then
      (.invalid_node_operation, st)
    else
      let r := env.mtApply updateOffset (.recommission i) st.members
      if r.1 = .success then
        (r.1, { st with
          members := r.2
          updateQueue := st.updateQueue
            ++ [{ id := i, type := .recommissioned, offset := updateOffset }] })
      else (r.1, { st with members := r.2 })
  | .finishReallocations i =>
    (.success, { st with updateQueue := st.updateQueue
      ++ [{ id := i, type := .reallocation_finished, offset := updateOffset }] })
  | .maintenance i enabled =>
    let r := env.mtApply updateOffset (.maintenance i enabled) st.members
    (r.1, { st with members := r.2 })
  | .registerNodeUuid uuid requested =>
    match requested with
    | some rid =>
      let r := tryRegisterNodeId st.registry rid uuid
      if r.1 then (.success, { st with registry := r.2 })
      else (.join_request_dispatch_error, { st with registry := r.2 })
    | none =>
      let r := getOrAssignNodeId (membersView st.members) st.registry uuid
      match r.1 with
      | none => (.invalid_node_operation, { st with registry := r.2 })
      | some _ => (.success, { st with registry := r.2 })

/-- Request `join_node_request`: the joining node's broker descriptor plus its UUID
bytes (empty when the node predates UUID support).  The logical version field
is not consulted by the handler and is omitted. -/
structure JoinNodeRequest where
  nodeUuid : List Nat
  node : Broker
deriving DecidableEq

/-- Outcome of `handle_join_request` (`result<join_node_reply>`): an error
code, a reply `{success, assigned_id}`, or (when this node is not the
leader) the dispatch of the request to the leader, whose outcome is
determined elsewhere. -/
inductive JoinResult where
  | error (e : Errc)
  | reply (success : Bool) (assignedId : Int)
  | forwardedToLeader
deriving DecidableEq

/-- Environment of `handle_join_request`: the feature gate, leadership, the
registry map, the tombstone set, the consensus configuration (broker ids and
RPC addresses), own id, the environment of the nested
configuration-update handler, and oracles for the two replicating calls:
`replicate_new_node_uuid(uuid, requested)` (its full returned
`result<join_node_reply>`) and `raft0->add_group_members` (a raft error code,
`none` on success). -/
structure JoinEnv where
  featureActive : Bool
  isLeader : Bool
  idByUuid : List (NodeUuid × Int)
  removedNodes : List Int
  cfgBrokerIds : List Int
  cfgAddresses : List Nat
  selfId : Int
  cfgEnv : CfgEnv
  replicateRes : Option Int → JoinResult
  addGroupMembersRes : Option Nat

/-- The tail of `handle_join_request` past the registry checks: a broker
already in the consensus configuration is treated as a configuration update
against self; with the feature inactive an address conflict is refused
(legacy rule); otherwise the broker is added to the consensus group at
revision 0.  The connection-cache warm-up to a non-self requester performed
just before `add_group_members` does not affect the returned value and is
omitted. -/
def joinTail (env : JoinEnv) (req : JoinNodeRequest) : JoinResult :=
  if req.node.id ∈ env.cfgBrokerIds then
    match handleConfigurationUpdate env.cfgEnv
        { node := req.node, targetNode := env.selfId } with
    | .reply s => .reply s (if s then req.node.id else UNASSIGNED)
    | .err e => .error e
  else if env.featureActive = false ∧ req.node.rpcAddress ∈ env.cfgAddresses then
    .reply false UNASSIGNED
  else
    match env.addGroupMembersRes with
    | none => .reply true req.node.id
    | some c => .error (.raft c)

/-- The registry branch of `handle_join_request` (the body of
`if (likely(node_id_assignment_supported && req_has_node_uuid))`),
parametrized by the result of `_id_by_uuid.find(node_uuid)`: a fresh UUID
with no requested id replicates a registration and returns its result; a
known UUID with no requested id returns the bound id with success; a
requested id must match the bound id and the bound id must not be
tombstoned, else `{success=false, UNASSIGNED}`; surviving requests fall
through to `joinTail`. -/
def joinRegistryBranch (env : JoinEnv) (req : JoinNodeRequest) :
    Option Int → JoinResult
  | none =>
    if req.node.id < 0 then env.replicateRes none
    else
      match env.replicateRes (some req.node.id) with
      | .error e => .error e
      | .forwardedToLeader => .forwardedToLeader
      | .reply s i => if s = false then .reply s i else joinTail env req
  | some bound =>
    if req.node.id < 0 then .reply true bound
    else if req.node.id ≠ bound then .reply false UNASSIGNED
    else if bound ∈ env.removedNodes then .reply false UNASSIGNED
    else joinTail env req

/-- Embedding of `members_manager::handle_join_request`, transcribed check for check: the
four `invalid_request` validations, the leader forward, then (feature active
and UUID present) the registry branch — unknown UUID with no requested id
replicates and returns; known UUID with no requested id returns the bound id
with success; a requested id is checked against the bound id and the
tombstone set — and finally the configuration tail. -/
def handleJoinRequest (env : JoinEnv) (req : JoinNodeRequest) : JoinResult :=
  if env.featureActive = true ∧ req.nodeUuid = [] then .error .invalid_request
  else if env.featureActive = false ∧ req.node.id < 0 then .error .invalid_request
  else if req.nodeUuid ≠ [] ∧ req.nodeUuid.length ≠ 16 then .error .invalid_request
  else if req.node.id < 0 ∧ req.nodeUuid = [] then .error .invalid_request
  else if env.isLeader = false then .forwardedToLeader
  else if env.featureActive = true ∧ req.nodeUuid ≠ [] then
    joinRegistryBranch env req (alookup env.idByUuid req.nodeUuid)
  else joinTail env req

theorem alookup_none_forall {α β : Type} [DecidableEq α] {m : List (α × β)} {a : α}
    (h : alookup m a = none) : ∀ p ∈ m, p.1 ≠ a := by
  induction m with
  | nil => intro p hp; cases hp
  | cons q rest ih =>
    obtain ⟨k, v⟩ := q
    intro p hp
    rw [alookup] at h
    split at h
    · cases h
    · rcases List.mem_cons.mp hp with rfl | hp'
      · simpa using ‹¬ k = a›
      · exact ih h p hp'

theorem alookup_cons_self {α β : Type} [DecidableEq α] (m : List (α × β)) (a : α)
    (v : β) : alookup ((a, v) :: m) a = some v := by
  rw [alookup]; simp

theorem alookup_cons_ne {α β : Type} [DecidableEq α] (m : List (α × β)) {a k : α}
    (v : β) (h : k ≠ a) : alookup ((k, v) :: m) a = alookup m a := by
  rw [alookup]; simp [h]

theorem aemplace_of_none {α β : Type} [DecidableEq α] {m : List (α × β)} {a : α}
    (v : β) (h : alookup m a = none) : aemplace m a v = (a, v) :: m := by
  rw [aemplace, h]

theorem advanceLoop_le (occ : Int → Bool) (fuel : Nat) (next : Int) :
    next ≤ (advanceLoop occ fuel next).2 := by
  induction fuel generalizing next with
  | zero => simp [advanceLoop]
  | succ fuel ih =>
    rw [advanceLoop]
    split
    · split
      · simp
      · exact le_trans (by omega) (ih (next + 1))
    · split <;> simp

theorem advanceLoop_some (occ : Int → Bool) (fuel : Nat) (next : Int) {m nf : Int}
    (h : advanceLoop occ fuel next = (some m, nf)) :
    next ≤ m ∧ nf = m ∧ occ m = false := by
  induction fuel generalizing next with
  | zero => rw [advanceLoop] at h; cases h
  | succ fuel ih =>
    rw [advanceLoop] at h
    split at h
    · split at h
      · cases h
      · obtain ⟨h1, h2, h3⟩ := ih (next + 1) h
        exact ⟨by omega, h2, h3⟩
    · split at h
      · cases h
      · simp only [Prod.mk.injEq, Option.some.injEq] at h
        obtain ⟨rfl, rfl⟩ := h
        exact ⟨le_refl _, rfl, by simpa using ‹¬ occ next = true›⟩

theorem advanceLoop_spec (occ : Int → Bool) (fuel : Nat) (next : Int)
    (hle : next ≤ INT_MAX) (hfuel : INT_MAX + 1 ≤ next + (fuel : Int)) :
    (∀ m nf, advanceLoop occ fuel next = (some m, nf) →
      next ≤ m ∧ m < INT_MAX ∧ occ m = false ∧
      ∀ k, next ≤ k → k < m → occ k = true) ∧
    (∀ nf, advanceLoop occ fuel next = (none, nf) →
      nf = INT_MAX ∧ ∀ k, next ≤ k → k < INT_MAX → occ k = true) := by
  induction fuel generalizing next with
  | zero =>
    exfalso
    simp only [Nat.cast_zero, add_zero] at hfuel
    omega
  | succ fuel ih =>
    have hcast : next + ((fuel + 1 : Nat) : Int) = (next + 1) + (fuel : Int) := by
      push_cast; ring
    constructor
    · intro m nf h
      rw [advanceLoop] at h
      split at h
      case isTrue hocc =>
        split at h
        case isTrue => cases h
        case isFalse hne =>
          have hrec := ih (next + 1) (by omega) (by omega)
          obtain ⟨h1, h2, h3, h4⟩ := hrec.1 m nf h
          refine ⟨by omega, h2, h3, ?_⟩
          intro k hk1 hk2
          rcases eq_or_lt_of_le hk1 with rfl | hk
          · exact hocc
          · exact h4 k (by omega) hk2
      case isFalse hocc =>
        split at h
        case isTrue => cases h
        case isFalse hne =>
          simp only [Prod.mk.injEq, Option.some.injEq] at h
          obtain ⟨rfl, rfl⟩ := h
          refine ⟨le_refl _, by omega, by simpa using hocc, ?_⟩
          intro k hk1 hk2
          exact absurd hk2 (by omega)
    · intro nf h
      rw [advanceLoop] at h
      split at h
      case isTrue hocc =>
        split at h
        case isTrue heq =>
          simp only [Prod.mk.injEq] at h
          refine ⟨by omega, ?_⟩
          intro k hk1 hk2
          exact absurd hk2 (by omega)
        case isFalse hne =>
          have hrec := (ih (next + 1) (by omega) (by omega)).2 nf h
          refine ⟨hrec.1, ?_⟩
          intro k hk1 hk2
          rcases eq_or_lt_of_le hk1 with rfl | hk
          · exact hocc
          · exact hrec.2 k (by omega) hk2
      case isFalse hocc =>
        split at h
        case isTrue heq =>
          simp only [Prod.mk.injEq] at h
          refine ⟨by omega, ?_⟩
          intro k hk1 hk2
          exact absurd hk2 (by omega)
        case isFalse hne => cases h

theorem getOrAssign_found (view : MembersView) (s : Registry) (uuid : NodeUuid)
    {n : Int} (h : alookup s.idByUuid uuid = some n) :
    getOrAssignNodeId view s uuid = (some n, s) := by
  rw [getOrAssignNodeId, h]

theorem getOrAssign_none_some (view : MembersView) (s : Registry) (uuid : NodeUuid)
    {m nf : Int} (h : alookup s.idByUuid uuid = none)
    (hadv : advanceLoop view.occupied (INT_MAX + 1 - s.nextAssignedId).toNat
      s.nextAssignedId = (some m, nf)) :
    getOrAssignNodeId view s uuid
      = (some m, { idByUuid := aemplace s.idByUuid uuid m, nextAssignedId := m + 1 }) := by
  rw [getOrAssignNodeId, h, hadv]

theorem getOrAssign_none_none (view : MembersView) (s : Registry) (uuid : NodeUuid)
    {nf : Int} (h : alookup s.idByUuid uuid = none)
    (hadv : advanceLoop view.occupied (INT_MAX + 1 - s.nextAssignedId).toNat
      s.nextAssignedId = (none, nf)) :
    getOrAssignNodeId view s uuid = (none, { s with nextAssignedId := nf }) := by
  rw [getOrAssignNodeId, h, hadv]

theorem getOrAssign_binds (view : MembersView) (s : Registry) (uuid : NodeUuid)
    {n : Int} (h : (getOrAssignNodeId view s uuid).1 = some n) :
    alookup (getOrAssignNodeId view s uuid).2.idByUuid uuid = some n := by
  cases hal : alookup s.idByUuid uuid with
  | some i =>
    rw [getOrAssign_found view s uuid hal] at h ⊢
    simp only [Option.some.injEq] at h
    rw [hal, h]
  | none =>
    cases hadv : advanceLoop view.occupied
        (INT_MAX + 1 - s.nextAssignedId).toNat s.nextAssignedId with
    | mk r nf =>
      cases r with
      | none =>
        rw [getOrAssign_none_none view s uuid hal hadv] at h
        cases h
      | some m =>
        rw [getOrAssign_none_some view s uuid hal hadv] at h ⊢
        simp only [Option.some.injEq] at h
        subst h
        simp only [aemplace_of_none _ hal]
        exact alookup_cons_self _ _ _

theorem registryInv_getOrAssign (view : MembersView) (s : Registry)
    (uuid : NodeUuid) (h : RegistryInv s) :
    RegistryInv (getOrAssignNodeId view s uuid).2 := by
  cases hal : alookup s.idByUuid uuid with
  | some i => rw [getOrAssign_found view s uuid hal]; exact h
  | none =>
    cases hadv : advanceLoop view.occupied
        (INT_MAX + 1 - s.nextAssignedId).toNat s.nextAssignedId with
    | mk r nf =>
      cases r with
      | none =>
        rw [getOrAssign_none_none view s uuid hal hadv]
        have hle := advanceLoop_le view.occupied
          (INT_MAX + 1 - s.nextAssignedId).toNat s.nextAssignedId
        rw [hadv] at hle
        refine ⟨h.1, ?_⟩
        intro p hp
        exact lt_of_lt_of_le (h.2 p hp) hle
      | some m =>
        rw [getOrAssign_none_some view s uuid hal hadv]
        obtain ⟨hm, -, -⟩ := advanceLoop_some view.occupied _ _ hadv
        constructor
        · rw [RegistryBijective]
          simp only [aemplace_of_none _ hal]
          refine List.Pairwise.cons ?_ h.1
          intro b hb
          refine ⟨fun he => ?_, fun he => ?_⟩
          · exact alookup_none_forall hal b hb he.symm
          · have := h.2 b hb
            simp only at he
            omega
        · intro p hp
          simp only [aemplace_of_none _ hal, List.mem_cons] at hp
          rcases hp with rfl | hp
          · simp only
            omega
          · have := h.2 p hp
            simp only
            omega

theorem registryInv_applyAssigns (calls : List (MembersView × NodeUuid))
    (s : Registry) (h : RegistryInv s) : RegistryInv (applyAssigns calls s) := by
  induction calls generalizing s with
  | nil => exact h
  | cons c rest ih =>
    exact ih (getOrAssignNodeId c.1 s c.2).2 (registryInv_getOrAssign c.1 s c.2 h)

theorem tryRegister_none (s : Registry) (rid : Int) (uuid : NodeUuid)
    (h : alookup s.idByUuid uuid = none) :
    tryRegisterNodeId s rid uuid
      = (true, { s with idByUuid := (uuid, rid) :: s.idByUuid }) := by
  rw [tryRegisterNodeId, h, aemplace_of_none _ h]

theorem tryRegister_some (s : Registry) (rid : Int) (uuid : NodeUuid) {i : Int}
    (h : alookup s.idByUuid uuid = some i) :
    tryRegisterNodeId s rid uuid = (decide (i = rid), s) := by
  rw [tryRegisterNodeId, h]

theorem applyOp_preserves_binding (s : Registry) (uuid : NodeUuid) {n : Int}
    (h : alookup s.idByUuid uuid = some n) (op : RegistryOp) :
    alookup (applyOp s op).idByUuid uuid = some n := by
  cases op with
  | tryReg rid u =>
    rw [applyOp]
    cases hal : alookup s.idByUuid u with
    | some i => rw [tryRegister_some s rid u hal]; exact h
    | none =>
      have hne : u ≠ uuid := by
        intro he; rw [he, h] at hal; cases hal
      rw [tryRegister_none s rid u hal]
      simp only
      rw [alookup_cons_ne _ _ hne]
      exact h
  | assign v u =>
    rw [applyOp]
    cases hal : alookup s.idByUuid u with
    | some i => rw [getOrAssign_found v s u hal]; exact h
    | none =>
      have hne : u ≠ uuid := by
        intro he; rw [he, h] at hal; cases hal
      cases hadv : advanceLoop v.occupied
          (INT_MAX + 1 - s.nextAssignedId).toNat s.nextAssignedId with
      | mk r nf =>
        cases r with
        | none => rw [getOrAssign_none_none v s u hal hadv]; exact h
        | some m =>
          rw [getOrAssign_none_some v s u hal hadv]
          simp only [aemplace_of_none _ hal]
          rw [alookup_cons_ne _ _ hne]
          exact h

theorem applyOps_preserves_binding (ops : List RegistryOp) (s : Registry)
    (uuid : NodeUuid) {n : Int} (h : alookup s.idByUuid uuid = some n) :
    alookup (applyOps ops s).idByUuid uuid = some n := by
  induction ops generalizing s with
  | nil => exact h
  | cons op rest ih => exact ih (applyOp s op) (applyOp_preserves_binding s uuid h op)

theorem seedNext_closed (next : Int) (m : List (NodeUuid × Int)) :
    seedNextAssignedId next m
      = if m.any (fun p => p.2 = INT_MAX) then INT_MAX
        else m.foldl (fun a p => max a (p.2 + 1)) next := by
  induction m generalizing next with
  | nil => rw [seedNextAssignedId]; simp
  | cons q rest ih =>
    obtain ⟨u, i⟩ := q
    rw [seedNextAssignedId]
    simp only [List.any_cons, List.foldl_cons]
    by_cases hi : i = INT_MAX
    · subst hi; simp
    · rw [if_neg hi, ih]
      rw [decide_eq_false hi, Bool.false_or]

/-- C2 (amended): for every sequence of `get_or_assign_node_id` calls starting
from the initial registry state (each call against an arbitrary members-table
view), the UUID-to-id registry remains a partial bijection and
`next_assigned_id` strictly exceeds every id bound in the registry.  The
original claim also covered `try_register_node_id` calls and tombstoned ids;
both parts fail on the code (see the counterexample). -/
theorem claim_C2_amended (calls : List (MembersView × NodeUuid)) :
    RegistryInv (applyAssigns calls initRegistry) := by
  apply registryInv_applyAssigns
  exact ⟨List.Pairwise.nil, fun p hp => absurd hp (List.not_mem_nil p)⟩

/-- C2 counterexample: `try_register_node_id` binds a requested id without
advancing `next_assigned_id` and without checking the reverse direction, so
after `try_register(5, u0); try_register(5, u1)` two UUIDs share id 5 and
`next_assigned_id = 1` does not exceed the bound id 5; and a single
`get_or_assign_node_id` against a view whose tombstone set is `{5}` leaves
`next_assigned_id = 2`, which does not exceed the tombstoned id 5. -/
theorem claim_C2_counterexample :
    (([0], 5) ∈ (tryRegisterNodeId (tryRegisterNodeId initRegistry 5 [0]).2 5 [1]).2.idByUuid
      ∧ ([1], 5) ∈ (tryRegisterNodeId (tryRegisterNodeId initRegistry 5 [0]).2 5 [1]).2.idByUuid)
    ∧ ¬ ((5 : Int) < (tryRegisterNodeId initRegistry 5 [0]).2.nextAssignedId)
    ∧ (getOrAssignNodeId ⟨[], [5]⟩ initRegistry [2]).2.nextAssignedId = 2
    ∧ ¬ ((5 : Int) < 2) := by decide

/-- C3: `get_or_assign_node_id` returns the existing id when the UUID is
bound; on a fresh UUID it returns the first id at or above `next_assigned_id`
that is neither in the active members table nor in the tombstone set, binds
the UUID to it and sets `next_assigned_id` just past it; and it returns NONE
exactly when every id from `next_assigned_id` up to (but excluding) the
reserved `INT_MAX` is occupied.  The hypothesis `next_assigned_id ≤ INT_MAX`
holds in every reachable registry state. -/
theorem claim_C3 (view : MembersView) (s : Registry) (uuid : NodeUuid)
    (hnext : s.nextAssignedId ≤ INT_MAX) :
    (∀ i, alookup s.idByUuid uuid = some i →
      getOrAssignNodeId view s uuid = (some i, s)) ∧
    (alookup s.idByUuid uuid = none →
      (∀ m t, getOrAssignNodeId view s uuid = (some m, t) →
        s.nextAssignedId ≤ m ∧ m < INT_MAX ∧ view.occupied m = false ∧
        (∀ k, s.nextAssignedId ≤ k → k < m → view.occupied k = true) ∧
        t = { idByUuid := aemplace s.idByUuid uuid m, nextAssignedId := m + 1 }) ∧
      ((getOrAssignNodeId view s uuid).1 = none ↔
        ∀ k, s.nextAssignedId ≤ k → k < INT_MAX → view.occupied k = true)) := by
  have hfuel : INT_MAX + 1
      ≤ s.nextAssignedId + (((INT_MAX + 1 - s.nextAssignedId).toNat : Nat) : Int) := by
    rw [Int.toNat_of_nonneg (by omega)]
    omega
  have hspec := advanceLoop_spec view.occupied (INT_MAX + 1 - s.nextAssignedId).toNat
    s.nextAssignedId hnext hfuel
  refine ⟨fun i hi => getOrAssign_found view s uuid hi, fun hnone => ?_⟩
  refine ⟨?_, ?_, ?_⟩
  · intro m t h
    cases hadv : advanceLoop view.occupied
        (INT_MAX + 1 - s.nextAssignedId).toNat s.nextAssignedId with
    | mk r nf =>
      cases r with
      | none =>
        rw [getOrAssign_none_none view s uuid hnone hadv] at h
        simp at h
      | some m' =>
        rw [getOrAssign_none_some view s uuid hnone hadv] at h
        simp only [Prod.mk.injEq, Option.some.injEq] at h
        obtain ⟨rfl, rfl⟩ := h
        obtain ⟨h1, h2, h3, h4⟩ := hspec.1 m' nf hadv
        exact ⟨h1, h2, h3, h4, rfl⟩
  · intro h0
    cases hadv : advanceLoop view.occupied
        (INT_MAX + 1 - s.nextAssignedId).toNat s.nextAssignedId with
    | mk r nf =>
      cases r with
      | none => exact (hspec.2 nf hadv).2
      | some m' =>
        rw [getOrAssign_none_some view s uuid hnone hadv] at h0
        simp at h0
  · intro hall
    cases hadv : advanceLoop view.occupied
        (INT_MAX + 1 - s.nextAssignedId).toNat s.nextAssignedId with
    | mk r nf =>
      cases r with
      | none => rw [getOrAssign_none_none view s uuid hnone hadv]
      | some m' =>
        exfalso
        obtain ⟨h1, h2, h3, -⟩ := hspec.1 m' nf hadv
        have hk := hall m' h1 h2
        rw [h3] at hk
        cases hk

/-- C3 witness: against a view with active id 1 and tombstoned id 2, a fresh
UUID is assigned id 3 (ids 1 and 2 are skipped) and the registry advances to
4. -/
theorem claim_C3_witness :
    initRegistry.nextAssignedId ≤ 3 ∧ (3 : Int) < INT_MAX ∧
    MembersView.occupied ⟨[1], [2]⟩ 3 = false ∧
    (∀ k, initRegistry.nextAssignedId ≤ k → k < 3 →
      MembersView.occupied ⟨[1], [2]⟩ k = true) ∧
    ({ idByUuid := [([0], 3)], nextAssignedId := 3 + 1 } : Registry)
      = { idByUuid := aemplace initRegistry.idByUuid [0] 3, nextAssignedId := 3 + 1 } :=
  ((claim_C3 ⟨[1], [2]⟩ initRegistry [0] (by decide)).2 (by decide)).1 3
    { idByUuid := [([0], 3)], nextAssignedId := 3 + 1 } (by decide)

/-- C4 counterexample: UUID `[1]` is unknown and the requested id 5 is
already held by UUID `[0]`, so by the claim the call falls in "every other
case" and must return false; the code returns true (no reverse-direction
check exists). -/
theorem claim_C4_counterexample :
    alookup ([([0], 5)] : List (NodeUuid × Int)) [1] = none ∧
    alookup ([([0], 5)] : List (NodeUuid × Int)) [0] = some 5 ∧
    (tryRegisterNodeId { idByUuid := [([0], 5)], nextAssignedId := 1 } 5 [1]).1 ≠ false := by
  decide

/-- C4 (amended): for every call `try_register_node_id(requested_id, uuid)`
with `requested_id ≠ UNASSIGNED`: if the UUID is unknown it binds the pair
and returns true — even when the requested id is already held by another
UUID; if the UUID is known it returns whether the bound id equals the
requested one, leaving the registry unchanged. -/
theorem claim_C4_amended (s : Registry) (rid : Int) (uuid : NodeUuid)
    (_hrid : rid ≠ UNASSIGNED) :
    (alookup s.idByUuid uuid = none →
      tryRegisterNodeId s rid uuid
        = (true, { s with idByUuid := (uuid, rid) :: s.idByUuid })) ∧
    (∀ i, alookup s.idByUuid uuid = some i →
      tryRegisterNodeId s rid uuid = (decide (i = rid), s)) :=
  ⟨fun h => tryRegister_none s rid uuid h, fun _ h => tryRegister_some s rid uuid h⟩

/-- C4 witness: registering id 5 for the fresh UUID `[0]` binds and succeeds. -/
theorem claim_C4_witness :
    tryRegisterNodeId initRegistry 5 [0]
      = (true, { initRegistry with idByUuid := ([0], 5) :: initRegistry.idByUuid }) :=
  (claim_C4_amended initRegistry 5 [0] (by decide)).1 (by decide)

/-- C6 (amended): `apply_initial_node_uuid_map` on the first call loads the
map and seeds `next_assigned_id` to `INT_MAX` verbatim when some id equals
`INT_MAX`, and to `max(1, max(ids)+1)` otherwise; any further call made once
the registry is nonempty is fatal (modelled as `none`). -/
theorem claim_C6_amended (m m' : List (NodeUuid × Int)) :
    applyInitialNodeUuidMap initRegistry m
      = some { idByUuid := m
               nextAssignedId :=
                 if m.any (fun p => p.2 = INT_MAX) then INT_MAX
                 else m.foldl (fun a p => max a (p.2 + 1)) 1 } ∧
    (m ≠ [] →
      applyInitialNodeUuidMap
        { idByUuid := m
          nextAssignedId := seedNextAssignedId initRegistry.nextAssignedId m } m'
        = none) := by
  constructor
  · rw [applyInitialNodeUuidMap]
    simp only [initRegistry, List.isEmpty_nil, if_true]
    rw [seedNext_closed]
  · intro hm
    cases m with
    | nil => exact absurd rfl hm
    | cons q rest => rfl

/-- C6 counterexample, both clauses of the claim: (a) for the initial map
`{[0] ↦ INT_MAX}` the code seeds `next_assigned_id = INT_MAX`, not
`max(1, max(ids)+1) = INT_MAX + 1` as the claim's formula states; (b) a
second call is not always rejected — after a first call loading the empty
map, the `vassert(_id_by_uuid.empty())` guard still passes and the second
call succeeds and loads its map (the guard checks registry emptiness, not a
call counter). -/
theorem claim_C6_counterexample :
    (applyInitialNodeUuidMap initRegistry [([0], INT_MAX)]
        = some { idByUuid := [([0], INT_MAX)], nextAssignedId := INT_MAX } ∧
      INT_MAX ≠ max 1 (INT_MAX + 1)) ∧
    (applyInitialNodeUuidMap initRegistry []
        = some { idByUuid := [], nextAssignedId := 1 } ∧
      applyInitialNodeUuidMap { idByUuid := [], nextAssignedId := 1 } [([0], 3)]
        = some { idByUuid := [([0], 3)], nextAssignedId := 4 }) := by decide

/-- C6 witness: a second call after loading a nonempty map is fatal. -/
theorem claim_C6_witness :
    applyInitialNodeUuidMap
      { idByUuid := [([0], 3)]
        nextAssignedId := seedNextAssignedId initRegistry.nextAssignedId [([0], 3)] } []
      = none :=
  (claim_C6_amended [([0], 3)] []).2 (by decide)

/-- C10: `get_or_assign_node_id` is idempotent — once a call returns id `n`
for a UUID, any interleaved sequence of registry operations (with arbitrary
members-table views) keeps the binding, and a later call for the same UUID
returns `n` without changing the registry. -/
theorem claim_C10 (view : MembersView) (s : Registry) (uuid : NodeUuid) (n : Int)
    (h : (getOrAssignNodeId view s uuid).1 = some n)
    (ops : List RegistryOp) (view' : MembersView) :
    getOrAssignNodeId view' (applyOps ops (getOrAssignNodeId view s uuid).2) uuid
      = (some n, applyOps ops (getOrAssignNodeId view s uuid).2) :=
  getOrAssign_found view' _ uuid
    (applyOps_preserves_binding ops _ uuid (getOrAssign_binds view s uuid h))

/-- C10 witness: UUID `[0]` is assigned id 1; after an unrelated
`try_register` and an unrelated assignment, a repeat call still returns 1 and
changes nothing. -/
theorem claim_C10_witness :
    getOrAssignNodeId ⟨[9], [8]⟩
        (applyOps [RegistryOp.tryReg 5 [1], RegistryOp.assign ⟨[], []⟩ [2]]
          (getOrAssignNodeId ⟨[], []⟩ initRegistry [0]).2) [0]
      = (some 1, applyOps [RegistryOp.tryReg 5 [1], RegistryOp.assign ⟨[], []⟩ [2]]
          (getOrAssignNodeId ⟨[], []⟩ initRegistry [0]).2) :=
  claim_C10 ⟨[], []⟩ initRegistry [0] 1 (by decide)
    [RegistryOp.tryReg 5 [1], RegistryOp.assign ⟨[], []⟩ [2]] ⟨[9], [8]⟩

theorem check_result_isSome_iff (current : List (Int × Broker)) (b : Broker) :
    (check_result_configuration current b).isSome ↔ BadConfiguration current b := by
  induction current with
  | nil =>
    rw [check_result_configuration, BadConfiguration]
    simp
  | cons q rest ih =>
    obtain ⟨i, cur⟩ := q
    rw [check_result_configuration]
    rw [BadConfiguration, List.exists_mem_cons_iff]
    by_cases hid : i = b.id
    · rw [if_pos hid]
      by_cases hc : cur.cores > b.cores
      · rw [if_pos hc]
        simp only [Option.isSome_some, true_iff]
        exact Or.inl (Or.inl ⟨hid, hc⟩)
      · rw [if_neg hc]
        rw [ih, BadConfiguration]
        constructor
        · exact fun hbad => Or.inr hbad
        · rintro (hhead | htail)
          · rcases hhead with ⟨-, hcores⟩ | ⟨hne, -⟩
            · exact absurd hcores hc
            · exact absurd hid hne
          · exact htail
    · rw [if_neg hid]
      by_cases haddr : cur.rpcAddress = b.rpcAddress
      · rw [if_pos haddr]
        simp only [Option.isSome_some, true_iff]
        exact Or.inl (Or.inr ⟨hid, Or.inl haddr⟩)
      · rw [if_neg haddr]
        by_cases hep : (cur.kafkaAdvertisedListeners.any
            (fun currentEp => b.kafkaAdvertisedListeners.any (fun ep => ep = currentEp))) = true
        · rw [if_pos hep]
          simp only [Option.isSome_some, true_iff]
          obtain ⟨currentEp, hmem, hin⟩ := List.any_eq_true.mp hep
          obtain ⟨ep, hepb, hepeq⟩ := List.any_eq_true.mp hin
          have : currentEp ∈ b.kafkaAdvertisedListeners := by
            have := of_decide_eq_true hepeq
            rwa [this] at hepb
          exact Or.inl (Or.inr ⟨hid, Or.inr ⟨currentEp, hmem, this⟩⟩)
        · rw [if_neg hep]
          rw [ih, BadConfiguration]
          constructor
          · exact fun hbad => Or.inr hbad
          · rintro (hhead | htail)
            · rcases hhead with ⟨hideq, -⟩ | ⟨-, haddr' | ⟨ep, hmem, hin⟩⟩
              · exact absurd hideq hid
              · exact absurd haddr' haddr
              · exact absurd (List.any_eq_true.mpr
                  ⟨ep, hmem, List.any_eq_true.mpr ⟨ep, hin, by simp⟩⟩) hep
            · exact htail

/-- C7 (amended): with `target_id = self`, a violation of the
core-count/address/endpoint rules always yields
`invalid_configuration_update`; and when this node is additionally the
consensus leader, `invalid_configuration_update` is returned exactly on a
violation.  The original "exactly when" fails without the leader hypothesis:
when the request passes the local check and is forwarded, the leader's own
verdict — possibly `invalid_configuration_update` against its newer members
table — is returned verbatim (see the counterexample). -/
theorem claim_C7_amended (env : CfgEnv) (req : ConfigurationUpdateRequest)
    (htarget : req.targetNode = env.selfId) :
    (BadConfiguration env.nodes req.node →
      handleConfigurationUpdate env req = .err .invalid_configuration_update) ∧
    (env.leaderId = some env.selfId →
      (handleConfigurationUpdate env req = .err .invalid_configuration_update
        ↔ BadConfiguration env.nodes req.node)) := by
  rw [handleConfigurationUpdate]
  rw [if_neg (by simp [htarget])]
  by_cases hbad : (check_result_configuration env.nodes req.node).isSome
  · rw [if_pos hbad]
    exact ⟨fun _ => rfl,
      fun _ => ⟨fun _ => (check_result_isSome_iff _ _).mp hbad, fun _ => rfl⟩⟩
  · rw [if_neg hbad]
    have hnotbad : ¬ BadConfiguration env.nodes req.node :=
      fun hb => hbad ((check_result_isSome_iff _ _).mpr hb)
    refine ⟨fun hb => absurd hb hnotbad,
      fun hlead => ⟨fun heq => ?_, fun hb => absurd hb hnotbad⟩⟩
    exfalso
    rw [hlead] at heq
    simp only at heq
    rw [if_pos trivial] at heq
    cases hu : env.updateGroupMemberRes with
    | none => rw [hu] at heq; cases heq
    | some c => rw [hu] at heq; simp at heq

/-- C7 counterexample: the local check passes (no rule is violated against
the only other broker), yet the handler — not being the leader — forwards the
request and returns the leader's `invalid_configuration_update` verdict, so
"returns `invalid_configuration_update` exactly when a local rule is
violated" fails. -/
theorem claim_C7_counterexample :
    ¬ BadConfiguration
        [(1, { id := 1, rpcAddress := 100, kafkaAdvertisedListeners := [⟨0, 200⟩], cores := 4, rack := none })]
        { id := 0, rpcAddress := 101, kafkaAdvertisedListeners := [⟨0, 201⟩], cores := 4, rack := none } ∧
    handleConfigurationUpdate
        { selfId := 0
          nodes := [(1, { id := 1, rpcAddress := 100, kafkaAdvertisedListeners := [⟨0, 200⟩], cores := 4, rack := none })]
          leaderId := some 1
          updateGroupMemberRes := none
          forwardRes := .err .invalid_configuration_update }
        { node := { id := 0, rpcAddress := 101, kafkaAdvertisedListeners := [⟨0, 201⟩], cores := 4, rack := none }
          targetNode := 0 }
      = .err .invalid_configuration_update := by decide

/-- C7 witness: on the leader, a core-count decrease for the node's own id is
rejected with `invalid_configuration_update`, and this is an exact
characterization. -/
theorem claim_C7_witness :
    handleConfigurationUpdate
        { selfId := 3
          nodes := [(3, { id := 3, rpcAddress := 100, kafkaAdvertisedListeners := [], cores := 8, rack := none })]
          leaderId := some 3
          updateGroupMemberRes := none
          forwardRes := .reply true }
        { node := { id := 3, rpcAddress := 100, kafkaAdvertisedListeners := [], cores := 4, rack := none }
          targetNode := 3 }
        = .err .invalid_configuration_update
      ↔ BadConfiguration
          [(3, { id := 3, rpcAddress := 100, kafkaAdvertisedListeners := [], cores := 8, rack := none })]
          { id := 3, rpcAddress := 100, kafkaAdvertisedListeners := [], cores := 4, rack := none } :=
  (claim_C7_amended
    { selfId := 3
      nodes := [(3, { id := 3, rpcAddress := 100, kafkaAdvertisedListeners := [], cores := 8, rack := none })]
      leaderId := some 3
      updateGroupMemberRes := none
      forwardRes := .reply true }
    { node := { id := 3, rpcAddress := 100, kafkaAdvertisedListeners := [], cores := 4, rack := none }
      targetNode := 3 } rfl).2 rfl

/-- C5 (amended): `handle_raft0_cfg_update` never decreases
`last_connection_update_offset`; when the batch offset does not exceed it,
the connection cache, the offset and the update queue are all left unchanged
(in particular nothing is enqueued for the added brokers); when it does
exceed it, the cache is reconciled against the diff computed from the
pre-state members table, the offset becomes the batch offset and exactly one
`added` update per added broker is appended.  The original claim's
unconditional "for each added broker an update is enqueued" fails (see the
counterexample). -/
theorem claim_C5_amended (st : ManagerState) (cfgBrokers : List Broker)
    (updateOffset : Int) :
    st.lastConnectionUpdateOffset
      ≤ (handleRaft0CfgUpdate st cfgBrokers updateOffset).lastConnectionUpdateOffset ∧
    (updateOffset ≤ st.lastConnectionUpdateOffset →
      (handleRaft0CfgUpdate st cfgBrokers updateOffset).lastConnectionUpdateOffset
          = st.lastConnectionUpdateOffset ∧
      (handleRaft0CfgUpdate st cfgBrokers updateOffset).connections = st.connections ∧
      (handleRaft0CfgUpdate st cfgBrokers updateOffset).updateQueue = st.updateQueue) ∧
    (st.lastConnectionUpdateOffset < updateOffset →
      (handleRaft0CfgUpdate st cfgBrokers updateOffset).lastConnectionUpdateOffset
          = updateOffset ∧
      (handleRaft0CfgUpdate st cfgBrokers updateOffset).connections
        = updateConnections st.selfId st.connections
            (calculateChangedNodes st.members.nodes cfgBrokers) ∧
      (handleRaft0CfgUpdate st cfgBrokers updateOffset).updateQueue
        = st.updateQueue ++ (calculateChangedNodes st.members.nodes cfgBrokers).added.map
            (fun b => { id := b.id, type := .added, offset := updateOffset })) := by
  rw [handleRaft0CfgUpdate]
  by_cases hoff : updateOffset ≤ st.lastConnectionUpdateOffset
  · rw [if_pos hoff]
    exact ⟨le_refl _, fun _ => ⟨rfl, rfl, rfl⟩, fun hlt => absurd hoff (not_le.mpr hlt)⟩
  · rw [if_neg hoff]
    exact ⟨le_of_lt (not_le.mp hoff), fun hle => absurd hle hoff, fun _ => ⟨rfl, rfl, rfl⟩⟩

/-- C5 counterexample: with `last_connection_update_offset = 10`, a
raft-configuration batch at offset 5 adding broker 7 enqueues nothing — the
early return skips step 5 as well — contradicting the claim's "for each
broker added by the new configuration a node update `{id, added, o}` is
enqueued". -/
theorem claim_C5_counterexample :
    (calculateChangedNodes ([] : List (Int × Broker))
        [{ id := 7, rpcAddress := 70, kafkaAdvertisedListeners := [], cores := 1, rack := none }]).added
      = [{ id := 7, rpcAddress := 70, kafkaAdvertisedListeners := [], cores := 1, rack := none }] ∧
    (handleRaft0CfgUpdate
        { selfId := 0, members := ⟨[], []⟩, registry := initRegistry,
          lastConnectionUpdateOffset := 10, connections := [], updateQueue := [] }
        [{ id := 7, rpcAddress := 70, kafkaAdvertisedListeners := [], cores := 1, rack := none }] 5).updateQueue
      = [] := by decide

/-- C5 witness: at offset 5 over a previous offset 0, broker 7's addition is
enqueued, the cache is reconciled and the offset advances. -/
theorem claim_C5_witness :
    (handleRaft0CfgUpdate
        { selfId := 0, members := ⟨[], []⟩, registry := initRegistry,
          lastConnectionUpdateOffset := 0, connections := [], updateQueue := [] }
        [{ id := 7, rpcAddress := 70, kafkaAdvertisedListeners := [], cores := 1, rack := none }] 5).lastConnectionUpdateOffset = 5 ∧
    (handleRaft0CfgUpdate
        { selfId := 0, members := ⟨[], []⟩, registry := initRegistry,
          lastConnectionUpdateOffset := 0, connections := [], updateQueue := [] }
        [{ id := 7, rpcAddress := 70, kafkaAdvertisedListeners := [], cores := 1, rack := none }] 5).connections
      = updateConnections 0 []
          (calculateChangedNodes (⟨[], []⟩ : MembersState).nodes
            [{ id := 7, rpcAddress := 70, kafkaAdvertisedListeners := [], cores := 1, rack := none }]) ∧
    (handleRaft0CfgUpdate
        { selfId := 0, members := ⟨[], []⟩, registry := initRegistry,
          lastConnectionUpdateOffset := 0, connections := [], updateQueue := [] }
        [{ id := 7, rpcAddress := 70, kafkaAdvertisedListeners := [], cores := 1, rack := none }] 5).updateQueue
      = [] ++ (calculateChangedNodes (⟨[], []⟩ : MembersState).nodes
            [{ id := 7, rpcAddress := 70, kafkaAdvertisedListeners := [], cores := 1, rack := none }]).added.map
          (fun b => { id := b.id, type := .added, offset := 5 }) :=
  (claim_C5_amended
    { selfId := 0, members := ⟨[], []⟩, registry := initRegistry,
      lastConnectionUpdateOffset := 0, connections := [], updateQueue := [] }
    [{ id := 7, rpcAddress := 70, kafkaAdvertisedListeners := [], cores := 1,
       rack := none }] 5).2.2 (by decide)

/-- C8: a `recommission_node(id)` command applied while the consensus
configuration is joint and `id` is among the old configuration's learners is
rejected with `invalid_node_operation` and the manager state — members table,
registry, connection cache and update queue — is left untouched (the
fan-out to the shards is never reached). -/
theorem claim_C8 (env : ApplyEnv) (st : ManagerState) (updateOffset i : Int)
    (hjoint : env.raftCfg.isJoint = true) (hlearner : i ∈ env.raftCfg.oldLearners) :
    applyUpdate env st updateOffset (.recommission i) = (.invalid_node_operation, st) := by
  have hany : (env.raftCfg.oldLearners.any fun l => decide (l = i)) = true :=
    List.any_eq_true.mpr ⟨i, hlearner, by simp⟩
  rw [applyUpdate]
  rw [if_pos ⟨hjoint, hany⟩]

/-- C8 witness: recommissioning node 5 while the configuration is joint with
5 a demoted voter is rejected without any state change. -/
theorem claim_C8_witness :
    applyUpdate
        { raftCfg := ⟨true, [5]⟩, mtApply := fun _ _ ms => (Errc.success, ms) }
        { selfId := 0, members := ⟨[], []⟩, registry := initRegistry,
          lastConnectionUpdateOffset := 0, connections := [], updateQueue := [] }
        3 (.recommission 5)
      = (.invalid_node_operation,
        { selfId := 0, members := ⟨[], []⟩, registry := initRegistry,
          lastConnectionUpdateOffset := 0, connections := [], updateQueue := [] }) :=
  claim_C8
    { raftCfg := ⟨true, [5]⟩, mtApply := fun _ _ ms => (Errc.success, ms) }
    { selfId := 0, members := ⟨[], []⟩, registry := initRegistry,
      lastConnectionUpdateOffset := 0, connections := [], updateQueue := [] }
    3 5 rfl (by decide)

/-- C9: a `finish_reallocations(id)` command — for any id whatsoever —
returns success and only appends `{id, reallocation_finished, offset}` to the
update queue; the members table (hence every shard's copy), the registry and
the connection cache are untouched. -/
theorem claim_C9 (env : ApplyEnv) (st : ManagerState) (updateOffset i : Int) :
    applyUpdate env st updateOffset (.finishReallocations i)
      = (.success, { st with updateQueue := st.updateQueue
          ++ [{ id := i, type := .reallocation_finished, offset := updateOffset }] }) ∧
    (applyUpdate env st updateOffset (.finishReallocations i)).2.members = st.members ∧
    (applyUpdate env st updateOffset (.finishReallocations i)).2.registry = st.registry ∧
    (applyUpdate env st updateOffset (.finishReallocations i)).2.connections
      = st.connections :=
  ⟨rfl, rfl, rfl, rfl⟩

/-- C1 (amended): with the node-id-assignment feature active, this node the
leader, and the request carrying a well-formed UUID bound to a tombstoned id:
if the request carries a requested node id the reply is
`{success=false, UNASSIGNED}` (either the id mismatches the binding or the
tombstone check fires); but if the request carries no node id the handler
returns the bound — tombstoned — id with `success=true` (the tombstone is
only enforced on the follow-up join that carries the id).  The original
claim's "for any shape of request" fails on the id-less shape (see the
counterexample). -/
theorem claim_C1_amended (env : JoinEnv) (req : JoinNodeRequest) (n : Int)
    (hfeat : env.featureActive = true) (hlead : env.isLeader = true)
    (hlen : req.nodeUuid.length = 16)
    (hbound : alookup env.idByUuid req.nodeUuid = some n)
    (hremoved : n ∈ env.removedNodes) :
    (0 ≤ req.node.id → handleJoinRequest env req = .reply false UNASSIGNED) ∧
    (req.node.id < 0 → handleJoinRequest env req = .reply true n) := by
  have huuid : req.nodeUuid ≠ [] := by
    intro h
    rw [h] at hlen
    cases hlen
  rw [handleJoinRequest]
  rw [if_neg (fun hc => huuid hc.2)]
  rw [if_neg (fun hc => by rw [hfeat] at hc; cases hc.1)]
  rw [if_neg (fun hc => hc.2 hlen)]
  rw [if_neg (fun hc => huuid hc.2)]
  rw [if_neg (by rw [hlead]; simp)]
  rw [if_pos ⟨hfeat, huuid⟩]
  rw [hbound]
  rw [joinRegistryBranch]
  constructor
  · intro hge
    rw [if_neg (not_lt.mpr hge)]
    by_cases hne : req.node.id ≠ n
    · rw [if_pos hne]
    · rw [if_neg hne]
      rw [if_pos hremoved]
  · intro hlt
    rw [if_pos hlt]

/-- C1 counterexample: feature active, leader, the 16-byte UUID is bound to
node id 1 and id 1 is tombstoned; a join request with that UUID and no node
id (id = UNASSIGNED) is answered `{success=true, assigned_id=1}`, while the
claim demands `{success=false, UNASSIGNED}` for every request shape. -/
theorem claim_C1_counterexample :
    alookup ([(List.replicate 16 7, 1)] : List (NodeUuid × Int))
        (List.replicate 16 7) = some 1 ∧
    (1 : Int) ∈ [(1 : Int)] ∧
    handleJoinRequest
      { featureActive := true
        isLeader := true
        idByUuid := [(List.replicate 16 7, 1)]
        removedNodes := [1]
        cfgBrokerIds := []
        cfgAddresses := []
        selfId := 0
        cfgEnv := { selfId := 0, nodes := [], leaderId := none, updateGroupMemberRes := none, forwardRes := .reply false }
        replicateRes := fun _ => .error .invalid_request
        addGroupMembersRes := none }
      { nodeUuid := List.replicate 16 7
        node := { id := -1, rpcAddress := 9, kafkaAdvertisedListeners := [], cores := 1, rack := none } }
      = .reply true 1 := by decide

/-- C1 witness: the same tombstoned binding with the id carried in the
request is rejected with `{success=false, UNASSIGNED}`. -/
theorem claim_C1_witness :
    handleJoinRequest
      { featureActive := true
        isLeader := true
        idByUuid := [(List.replicate 16 7, 1)]
        removedNodes := [1]
        cfgBrokerIds := []
        cfgAddresses := []
        selfId := 0
        cfgEnv := { selfId := 0, nodes := [], leaderId := none, updateGroupMemberRes := none, forwardRes := .reply false }
        replicateRes := fun _ => .error .invalid_request
        addGroupMembersRes := none }
      { nodeUuid := List.replicate 16 7
        node := { id := 1, rpcAddress := 9, kafkaAdvertisedListeners := [], cores := 1, rack := none } }
      = .reply false UNASSIGNED :=
  (claim_C1_amended
    { featureActive := true
      isLeader := true
      idByUuid := [(List.replicate 16 7, 1)]
      removedNodes := [1]
      cfgBrokerIds := []
      cfgAddresses := []
      selfId := 0
      cfgEnv := { selfId := 0, nodes := [], leaderId := none, updateGroupMemberRes := none, forwardRes := .reply false }
      replicateRes := fun _ => .error .invalid_request
      addGroupMembersRes := none }
    { nodeUuid := List.replicate 16 7
      node := { id := 1, rpcAddress := 9, kafkaAdvertisedListeners := [], cores := 1, rack := none } }
    1 rfl rfl (by decide) (by decide) (by decide)).1 (by decide)

end RedpandaMembers
